import Mathlib

/-!
# Resumable Streaming Request subsystem — verification development

A shallow embedding of the resumable-streaming subsystem of the
`claude-code-webui` repository, together with theorems settling the frozen
claims about its specification.

The embedded source files are:
* `backend/streaming/streamingFileManager.ts` (the stream log, the in-memory
  request registry `requestStatuses`, and the cleanup sweeper),
* `backend/handlers/resume.ts` (the resume handler),
* `backend/handlers/chat.ts` (the streaming session controller
  `executeClaudeCommand` and the status handler),
* `frontend/src/hooks/useNetworkRecovery.ts` (the client recovery agent), and
* `frontend/src/components/ChatPage.tsx` (the `sendMessage` recovery callback).

Modelling conventions:
* JS `number` values that can be `NaN` (the result of `parseInt`) are modelled
  by `JSNumber`; all other numbers are `Nat` / `Int` / `Rat` as appropriate.
* A `Date` is its millisecond timestamp (`Int`, as `getTime()` differences can
  be negative).
* A JS `Map` is an insertion-ordered association list `List (String × α)`;
  `mapGet` / `mapSet` / `mapDelete` model `get` / `set` / `delete`.
* The content of a `.jsonl` stream file is the list of its newline-delimited
  records.  `JSON.stringify` output is non-blank and newline-free, so the
  `trim`/`split`/`filter` pipeline of `readStreamingFile` recovers exactly the
  appended records; a record is `some m` when `JSON.parse` yields the message
  `m` and `none` when parsing throws (a malformed line).
* File-system writes are modelled as total; the HOME-lookup failure path of
  `getStreamingDir` is kept (`Except`).
-/

/-- `RequestStatus` from `shared/types.ts`. -/
inductive RequestStatus where
  | in_progress
  | completed
  | failed
  | aborted
  | not_found
deriving DecidableEq, Repr

/-- `StreamResponse` from `shared/types.ts`: a tagged message with
`type ∈ {claude_json, error, done, aborted}`.  The `data` payload of a
`claude_json` message is opaque to the subsystem and kept as a `String`. -/
inductive StreamResponse where
  | claude_json (data : String)
  | error (error : String)
  | done
  | aborted
deriving DecidableEq, Repr

/-- A message is terminal when its type is `done`, `error` or `aborted`. -/
def StreamResponse.isTerminal : StreamResponse → Bool
  | .claude_json _ => false
  | _ => true

/-- `StreamingFileInfo` from `streamingFileManager.ts`. -/
structure StreamingFileInfo where
  requestId : String
  filePath : String
  status : RequestStatus
  totalMessages : Nat
  lastUpdated : Int
deriving DecidableEq, Repr

/-- One line of a `.jsonl` stream file: `some m` when the line parses back to
the message `m`, `none` when `JSON.parse` throws on it. -/
abbrev FileLine := Option StreamResponse

/-- The server-side mutable state: the in-memory `requestStatuses` map and the
file system restricted to the stream files, keyed by file path. -/
structure ServerState where
  requestStatuses : List (String × StreamingFileInfo)
  files : List (String × List FileLine)
deriving DecidableEq, Repr

/-- JS `Map.prototype.get` on an insertion-ordered association list. -/
def mapGet {α : Type} : List (String × α) → String → Option α
  | [], _ => none
  | e :: t, k => if e.1 = k then some e.2 else mapGet t k

/-- JS `Map.prototype.set`: replaces the entry in place when the key is
present, appends it otherwise. -/
def mapSet {α : Type} : List (String × α) → String → α → List (String × α)
  | [], k, v => [(k, v)]
  | e :: t, k, v => if e.1 = k then (k, v) :: t else e :: mapSet t k v

/-- JS `Map.prototype.delete` (also models removing a file from the file
system, for the `files` component). -/
def mapDelete {α : Type} (m : List (String × α)) (k : String) :
    List (String × α) :=
  m.filter (fun e => e.1 ≠ k)

/-- A JS number that is either `NaN` or an integer — the possible results of
`parseInt`. -/
inductive JSNumber where
  | nan
  | int (n : Int)
deriving DecidableEq, Repr

/-- Decimal digit run value. -/
def digitsVal (cs : List Char) : Nat :=
  cs.foldl (fun acc c => acc * 10 + (c.toNat - 48)) 0

/-- `parseInt(s, 10)`: skip leading whitespace, read an optional sign, then
the longest run of decimal digits; `NaN` when that run is empty. -/
def parseIntDec (s : String) : JSNumber :=
  let cs := s.toList.dropWhile (fun c => c = ' ' ∨ c = '\t' ∨ c = '\n' ∨ c = '\r')
  let signed : Int × List Char :=
    match cs with
    | '-' :: t => (-1, t)
    | '+' :: t => (1, t)
    | _ => (1, cs)
  let digits := signed.2.takeWhile (fun c => '0' ≤ c ∧ c ≤ '9')
  if digits = [] then .nan
  else .int (signed.1 * (digitsVal digits : Int))

/-- JS `x || dflt` applied to an optional query string: the empty string and a
missing value are both falsy. -/
def jsOr (s : Option String) (dflt : String) : String :=
  match s with
  | some v => if v = "" then dflt else v
  | none => dflt

/-- `getStreamingDir` from `streamingFileManager.ts`; throws when `HOME` is
not set. -/
def getStreamingDir (home : Option String) (encodedProjectName : String) :
    Except String String :=
  match home with
  | none => .error "HOME environment variable not found"
  | some h => .ok (h ++ "/.claude/projects/" ++ encodedProjectName ++ "/streaming")

/-- `getStreamingFilePath` from `streamingFileManager.ts`. -/
def getStreamingFilePath (home : Option String) (encodedProjectName requestId : String) :
    Except String String :=
  (getStreamingDir home encodedProjectName).map
    (fun d => d ++ "/" ++ requestId ++ ".jsonl")

/-- `lines[i]` followed by `JSON.parse` inside the read loop of
`readStreamingFile`:  a negative index reads `undefined`, whose parse throws
(`none`), and a malformed line (`none` in the model) also throws. -/
def jsLineAt (lines : List FileLine) (i : Int) : Option StreamResponse :=
  if i < 0 then none else (lines.getD i.toNat none)

/-- The body of `for (let i = fromIndex; i < lines.length; i++)` in
`readStreamingFile`, lines 152–159: parse `lines[i]`, keep the message on
success, skip the line when `JSON.parse` throws.  `fuel` is the exact number
of iterations the loop performs, `((lines.length : Int) - i).toNat`. -/
def readLinesAux (lines : List FileLine) : Nat → Int → List StreamResponse
  | 0, _ => []
  | fuel + 1, i =>
    match jsLineAt lines i with
    | some m => m :: readLinesAux lines fuel (i + 1)
    | none => readLinesAux lines fuel (i + 1)

/-- The read loop of `readStreamingFile` for an integer `fromIndex`. -/
def readLines (lines : List FileLine) (i : Int) : List StreamResponse :=
  readLinesAux lines ((lines.length : Int) - i).toNat i

/-- The read loop of `readStreamingFile` for a possibly-`NaN` `fromIndex`:
`NaN < lines.length` is false, so the loop body never runs. -/
def readLoop (lines : List FileLine) : JSNumber → List StreamResponse
  | .nan => []
  | .int i => readLines lines i

/-- `readStreamingFile` from `streamingFileManager.ts`: resolve the file path,
return `[]` when the file does not exist, otherwise run the read loop over the
file's lines. -/
def readStreamingFile (st : ServerState) (home : Option String)
    (encodedProjectName requestId : String) (fromIndex : JSNumber) :
    Except String (List StreamResponse) :=
  match getStreamingFilePath home encodedProjectName requestId with
  | .error e => .error e
  | .ok filePath =>
    match mapGet st.files filePath with
    | none => .ok []
    | some lines => .ok (readLoop lines fromIndex)

-- Basic facts about the read loop.

theorem readLinesAux_map_some (msgs : List StreamResponse) :
    ∀ fuel k, fuel = msgs.length - k →
      readLinesAux (msgs.map some) fuel (k : Int) = msgs.drop k := by
  intro fuel
  induction fuel with
  | zero =>
    intro k hk
    have : msgs.length ≤ k := by omega
    simp [readLinesAux, List.drop_eq_nil_of_le this]
  | succ n ih =>
    intro k hk
    have hklt : k < msgs.length := by omega
    have hkm : k < (msgs.map some).length := by simpa using hklt
    have hline : jsLineAt (msgs.map some) (k : Int) = some (msgs[k]) := by
      unfold jsLineAt
      rw [if_neg (by omega)]
      rw [Int.toNat_natCast, List.getD_eq_getElem _ _ hkm]
      simp
    have hstep : ((k : Int) + 1) = ((k + 1 : Nat) : Int) := by omega
    rw [readLinesAux, hline, hstep, ih (k + 1) (by omega)]
    rw [List.drop_eq_getElem_cons hklt]

theorem readLines_map_some (msgs : List StreamResponse) (k : Nat) :
    readLines (msgs.map some) (k : Int) = msgs.drop k := by
  have := readLinesAux_map_some msgs (msgs.length - k) k rfl
  simpa [readLines] using this

/-- `getRequestStatus` from `streamingFileManager.ts`:
`requestStatuses.get(requestId) || null`. -/
def getRequestStatus (st : ServerState) (requestId : String) :
    Option StreamingFileInfo :=
  mapGet st.requestStatuses requestId

/-- `Array.prototype.indexOf`, running index accumulator. -/
def jsIndexOfAux : List String → String → Nat → Int
  | [], _, _ => -1
  | a :: t, x, i => if a = x then (i : Int) else jsIndexOfAux t x (i + 1)

/-- `Array.prototype.indexOf`: the first index of `x`, or `-1`. -/
def jsIndexOf (l : List String) (x : String) : Int :=
  jsIndexOfAux l x 0

/-- JS array indexing `l[i]` at an index the caller has bounds-checked. -/
def jsGetElem (l : List String) (i : Int) : String :=
  if i < 0 then "" else l.getD i.toNat ""

/-- Accumulator loop for `jsSplitSlash`. -/
def splitSlashAux : List Char → List Char → List String
  | [], acc => [String.mk acc.reverse]
  | c :: rest, acc =>
    if c = '/' then String.mk acc.reverse :: splitSlashAux rest []
    else splitSlashAux rest (c :: acc)

/-- JS `s.split("/")`: split at every `/`, keeping empty segments. -/
def jsSplitSlash (s : String) : List String :=
  splitSlashAux s.toList []

/-- Lines 33–40 of `handlers/resume.ts`: split the stored `filePath` on `/`,
locate the `projects` component, and read the following component as the
encoded project name; `none` stands for the 500 `Invalid file path structure`
response. -/
def extractEncodedProjectName (filePath : String) : Option String :=
  let pathParts := jsSplitSlash filePath
  let projectsIndex := jsIndexOf pathParts "projects"
  if projectsIndex = -1 ∨ (pathParts.length : Int) ≤ projectsIndex + 2 then none
  else some (jsGetElem pathParts (projectsIndex + 1))

/-- `ResumeResponse` from `shared/types.ts`. -/
structure ResumeResponse where
  messages : List StreamResponse
  totalMessages : Nat
  isComplete : Bool
deriving DecidableEq, Repr

/-- The observable outcome of a request handler: a JSON body with status 200,
or a `c.json({ error }, code)` error response. -/
inductive ApiResult (α : Type) where
  | ok (body : α)
  | jsonError (message : String) (code : Nat)
deriving DecidableEq, Repr

/-- `handleResumeRequest` from `handlers/resume.ts`:
parse `fromIndex` with `parseInt(query || "0", 10)`, reject an empty
`requestId` (400), reject an unknown request (404 `Request not found`),
extract the encoded project name from the stored file path (500 on failure),
then read the streaming file from `fromIndex` and answer with
`{ messages, totalMessages, isComplete: status !== "in_progress" }`. -/
def handleResumeRequest (st : ServerState) (home : Option String)
    (requestId : String) (fromIndexQuery : Option String) :
    ApiResult ResumeResponse :=
  let fromIndex := parseIntDec (jsOr fromIndexQuery "0")
  if requestId = "" then .jsonError "Request ID is required" 400
  else
    match getRequestStatus st requestId with
    | none => .jsonError "Request not found" 404
    | some status =>
      match extractEncodedProjectName status.filePath with
      | none => .jsonError "Invalid file path structure" 500
      | some encodedProjectName =>
        match readStreamingFile st home encodedProjectName requestId fromIndex with
        | .error _ => .jsonError "Failed to read streaming data" 500
        | .ok messages =>
          .ok { messages := messages
                totalMessages := status.totalMessages
                isComplete := decide (status.status ≠ RequestStatus.in_progress) }

/-- **C1.** For a request whose log holds the `N` messages appended in order,
resume with `fromIndex 0` returns the full message sequence in order; with
`fromIndex k` it returns exactly the suffix starting at index `k`; and for
`k ≥ N` it returns the empty sequence rather than an error. -/
theorem resume_returns_suffix_from_index
    (st : ServerState) (h p rid fp : String) (info : StreamingFileInfo)
    (msgs : List StreamResponse) (k : Nat) (q : Option String)
    (hrid : rid ≠ "")
    (hstat : getRequestStatus st rid = some info)
    (hproj : extractEncodedProjectName info.filePath = some p)
    (hfp : getStreamingFilePath (some h) p rid = .ok fp)
    (hfile : mapGet st.files fp = some (msgs.map some))
    (hq : parseIntDec (jsOr q "0") = .int (k : Int)) :
    handleResumeRequest st (some h) rid q =
      .ok { messages := msgs.drop k
            totalMessages := info.totalMessages
            isComplete := decide (info.status ≠ RequestStatus.in_progress) }
    ∧ (k = 0 → msgs.drop k = msgs)
    ∧ (msgs.length ≤ k → msgs.drop k = []) := by
  refine ⟨?_, fun hk => by simp [hk], fun hk => List.drop_eq_nil_of_le hk⟩
  have hread : readStreamingFile st (some h) p rid (.int (k : Int)) =
      .ok (msgs.drop k) := by
    unfold readStreamingFile
    simp only [hfp, hfile, readLoop, readLines_map_some]
  unfold handleResumeRequest
  rw [if_neg hrid]
  simp only [hstat, hq, hproj, hread]

/-- A three-message log used to instantiate the resume theorems:
`Data("a")`, `Data("b")`, `Done`. -/
def msgsW : List StreamResponse :=
  [.claude_json "a", .claude_json "b", .done]

/-- The stream-file path of request `r1` in the sample state. -/
def fpW : String := "/home/user/.claude/projects/proj/streaming/r1.jsonl"

/-- The registry entry of request `r1` in the sample state. -/
def infoW : StreamingFileInfo :=
  { requestId := "r1", filePath := fpW, status := .completed
    totalMessages := 3, lastUpdated := 0 }

/-- A sample server state: one completed request `r1` with three logged
messages. -/
def stW : ServerState :=
  { requestStatuses := [("r1", infoW)], files := [(fpW, msgsW.map some)] }

theorem resume_returns_suffix_from_index_witness :
    handleResumeRequest stW (some "/home/user") "r1" (some "1") =
      .ok { messages := [.claude_json "b", .done]
            totalMessages := 3, isComplete := true } := by
  have h := resume_returns_suffix_from_index stW "/home/user" "proj" "r1" fpW
    infoW msgsW 1 (some "1") (by decide) (by decide) (by decide) rfl
    (by decide) (by decide)
  simpa [msgsW, infoW] using h.1


theorem mapGet_mapSet_self {α : Type} (m : List (String × α)) (k : String) (v : α) :
    mapGet (mapSet m k v) k = some v := by
  induction m with
  | nil => simp [mapSet, mapGet]
  | cons e t ih =>
    by_cases he : e.1 = k
    · simp [mapSet, he, mapGet]
    · simp [mapSet, he, mapGet, ih]

/-- Lines 119–126 of `streamingFileManager.ts` (`appendMessage`): the registry
status after recording a message — a `done` message sets `completed`, an
`error` message sets `failed`, an `aborted` message sets `aborted`, and any
other message leaves the status unchanged. -/
def statusAfterMessage (s : RequestStatus) (m : StreamResponse) : RequestStatus :=
  match m with
  | .done => .completed
  | .error _ => .failed
  | .aborted => .aborted
  | .claude_json _ => s

/-- `initializeStreaming` from `streamingFileManager.ts`: resolve the
streaming directory (`ensureDir` leaves the model's file map unchanged) and
unconditionally `set` a fresh `in_progress` entry with `totalMessages = 0`
into `requestStatuses`. -/
def initializeStreaming (st : ServerState) (home : Option String)
    (encodedProjectName requestId : String) (now : Int) :
    Except String ServerState :=
  match getStreamingDir home encodedProjectName with
  | .error e => .error e
  | .ok _ =>
    match getStreamingFilePath home encodedProjectName requestId with
    | .error e => .error e
    | .ok filePath =>
      let info : StreamingFileInfo :=
        { requestId := requestId, filePath := filePath
          status := .in_progress, totalMessages := 0, lastUpdated := now }
      .ok { st with requestStatuses := mapSet st.requestStatuses requestId info }

/-- `appendMessage` from `streamingFileManager.ts`: throw when the request is
not initialized; otherwise append one serialized line to the stream file,
increment `totalMessages`, refresh `lastUpdated`, and update the status per
the message type. -/
def appendMessage (st : ServerState) (home : Option String)
    (encodedProjectName requestId : String) (m : StreamResponse) (now : Int) :
    Except String ServerState :=
  match getStreamingFilePath home encodedProjectName requestId with
  | .error e => .error e
  | .ok filePath =>
    match mapGet st.requestStatuses requestId with
    | none => .error ("Request " ++ requestId ++ " not initialized")
    | some info =>
      let updated : StreamingFileInfo :=
        { info with totalMessages := info.totalMessages + 1
                    lastUpdated := now
                    status := statusAfterMessage info.status m }
      let newLines : List FileLine := (mapGet st.files filePath).getD [] ++ [some m]
      .ok { requestStatuses := mapSet st.requestStatuses requestId updated
            files := mapSet st.files filePath newLines }

/-- The pre-existing registry entry used to refute C5: request `r1` already
completed with three logged messages. -/
def infoC5old : StreamingFileInfo :=
  { requestId := "r1", filePath := fpW, status := .completed
    totalMessages := 3, lastUpdated := 100 }

/-- A server state in which `r1` already has a registry entry. -/
def stC5 : ServerState :=
  { requestStatuses := [("r1", infoC5old)], files := [(fpW, msgsW.map some)] }

/-- The entry `initializeStreaming` installs over the existing one. -/
def infoC5fresh : StreamingFileInfo :=
  { requestId := "r1", filePath := fpW, status := .in_progress
    totalMessages := 0, lastUpdated := 500 }

/-- **C5 counterexample.** Registering `r1` while a registry entry for `r1`
already exists does not fail with `AlreadyRegistered`: it succeeds, and it
replaces the existing entry (status `completed`, `totalMessages = 3`) with a
fresh `in_progress` entry with `totalMessages = 0` — the existing entry's
status and `totalMessages` are reset, refuting the claim. -/
theorem initializeStreaming_overwrites_counterexample :
    initializeStreaming stC5 (some "/home/user") "proj" "r1" 500 =
      .ok { requestStatuses := [("r1", infoC5fresh)], files := stC5.files }
    ∧ infoC5fresh.status ≠ infoC5old.status
    ∧ infoC5fresh.totalMessages ≠ infoC5old.totalMessages :=
  ⟨rfl, by decide, by decide⟩

/-- The entry that `initializeStreaming` installs: the object literal of
`streamingFileManager.ts` lines 84–90, with the file path it resolves when
`HOME = h`. -/
def freshEntry (h p rid : String) (now : Int) : StreamingFileInfo :=
  { requestId := rid
    filePath := (h ++ "/.claude/projects/" ++ p ++ "/streaming") ++ "/" ++ rid ++ ".jsonl"
    status := .in_progress, totalMessages := 0, lastUpdated := now }

/-- **C5 amended.** Registering a request for which a registry entry already
exists does not fail: `initializeStreaming` always succeeds (given a HOME
directory) and unconditionally installs a fresh `in_progress` entry with
`totalMessages = 0` and `lastUpdated = now`, silently replacing any existing
entry for that `requestId`. -/
theorem initializeStreaming_always_replaces
    (st : ServerState) (h p rid : String) (now : Int) :
    initializeStreaming st (some h) p rid now =
      .ok { st with requestStatuses := mapSet st.requestStatuses rid (freshEntry h p rid now) }
    ∧ getRequestStatus
        { st with requestStatuses := mapSet st.requestStatuses rid (freshEntry h p rid now) } rid =
      some (freshEntry h p rid now) :=
  ⟨rfl, mapGet_mapSet_self ..⟩

/-- The cleanup period of `streamingFileManager.ts`, also used as the
retention window of the sweep: 5 minutes in milliseconds. -/
def CLEANUP_INTERVAL_MS : Int := 5 * 60 * 1000

/-- The sweep condition of `cleanupExpiredFiles` lines 180–184: the entry's
`lastUpdated` age exceeds the retention window and its status is not
`in_progress`. -/
def isExpired (now : Int) (info : StreamingFileInfo) : Bool :=
  decide (now - info.lastUpdated > CLEANUP_INTERVAL_MS) &&
  decide (info.status ≠ RequestStatus.in_progress)

/-- One iteration of the deletion loop of `cleanupExpiredFiles` lines
190–200: look the request up again, try to delete its stream file
(`removeOk` tells which `runtime.remove` calls succeed; a failure is only
logged), and delete the registry entry regardless. -/
def sweepOne (removeOk : String → Bool) (acc : ServerState) (requestId : String) :
    ServerState :=
  match mapGet acc.requestStatuses requestId with
  | some info =>
    let acc1 := if removeOk info.filePath
                then { acc with files := mapDelete acc.files info.filePath }
                else acc
    { acc1 with requestStatuses := mapDelete acc1.requestStatuses requestId }
  | none => acc

/-- `cleanupExpiredFiles` from `streamingFileManager.ts`: collect the expired
request ids in a first pass over `requestStatuses`, then delete their files
and registry entries. -/
def cleanupExpiredFiles (now : Int) (st : ServerState) (removeOk : String → Bool) :
    ServerState :=
  let expiredRequests :=
    (st.requestStatuses.filter (fun e => isExpired now e.2)).map Prod.fst
  expiredRequests.foldl (sweepOne removeOk) st

-- Association-list facts used to characterise the sweep.

theorem filter_key_eq_self_of_mapGet_none {α : Type}
    (m : List (String × α)) (k : String) (hnone : mapGet m k = none) :
    m.filter (fun e => e.1 ≠ k) = m := by
  induction m with
  | nil => rfl
  | cons e t ih =>
    by_cases he : e.1 = k
    · simp [mapGet, he] at hnone
    · simp only [mapGet, if_neg he] at hnone
      rw [List.filter_cons_of_pos (by simpa using he), ih hnone]

theorem sweepOne_requestStatuses (removeOk : String → Bool)
    (acc : ServerState) (rid : String) :
    (sweepOne removeOk acc rid).requestStatuses =
      acc.requestStatuses.filter (fun e => e.1 ≠ rid) := by
  unfold sweepOne
  match hget : mapGet acc.requestStatuses rid with
  | some info => by_cases hrm : removeOk info.filePath <;> simp [hrm, mapDelete]
  | none => exact (filter_key_eq_self_of_mapGet_none _ _ hget).symm

theorem foldl_sweepOne_requestStatuses (removeOk : String → Bool) :
    ∀ (ids : List String) (acc : ServerState),
      ((ids.foldl (sweepOne removeOk) acc).requestStatuses) =
        acc.requestStatuses.filter (fun e => !(ids.contains e.1)) := by
  intro ids
  induction ids with
  | nil => intro acc; simp
  | cons rid t ih =>
    intro acc
    rw [List.foldl_cons, ih, sweepOne_requestStatuses, List.filter_filter]
    apply List.filter_congr
    intro e _
    simp [List.contains_cons, decide_not, Bool.and_comm]

theorem mapGet_filter_key {α : Type} (m : List (String × α))
    (q : String → Bool) (k : String) :
    mapGet (m.filter (fun e => q e.1)) k =
      if q k then mapGet m k else none := by
  induction m with
  | nil => simp [mapGet]
  | cons e t ih =>
    by_cases hq : q e.1
    · by_cases he : e.1 = k
      · subst he
        simp [List.filter_cons, hq, mapGet, ih]
      · simp [List.filter_cons, hq, mapGet, he, ih]
    · by_cases he : e.1 = k
      · subst he
        simp only [List.filter_cons, hq]
        simp only [Bool.false_eq_true, if_false]
        rw [ih]
        simp [mapGet, hq]
      · simp [List.filter_cons, hq, mapGet, he, ih]

theorem mapGet_eq_some_of_nodup {α : Type} (m : List (String × α))
    (k : String) (v : α) (hnodup : (m.map Prod.fst).Nodup)
    (hmem : (k, v) ∈ m) : mapGet m k = some v := by
  induction m with
  | nil => simp at hmem
  | cons e t ih =>
    simp only [List.map_cons, List.nodup_cons] at hnodup
    rcases List.mem_cons.mp hmem with heq | hmemt
    · subst heq; simp [mapGet]
    · have hek : e.1 ≠ k := by
        intro hek
        exact hnodup.1 (hek ▸ List.mem_map_of_mem Prod.fst hmemt)
      simp [mapGet, hek, ih hnodup.2 hmemt]

theorem key_unique_of_nodup {α : Type} (m : List (String × α))
    (k : String) (a b : α) (hnodup : (m.map Prod.fst).Nodup)
    (ha : (k, a) ∈ m) (hb : (k, b) ∈ m) : a = b := by
  have h1 := mapGet_eq_some_of_nodup m k a hnodup ha
  have h2 := mapGet_eq_some_of_nodup m k b hnodup hb
  rw [h1] at h2
  exact Option.some_injective _ h2

theorem mem_expired_ids_iff (now : Int) (st : ServerState)
    (rid : String) (info : StreamingFileInfo)
    (hnodup : (st.requestStatuses.map Prod.fst).Nodup)
    (hmem : (rid, info) ∈ st.requestStatuses) :
    rid ∈ ((st.requestStatuses.filter (fun e => isExpired now e.2)).map Prod.fst)
      ↔ isExpired now info = true := by
  constructor
  · intro hin
    rcases List.mem_map.mp hin with ⟨e, hef, hekey⟩
    rcases List.mem_filter.mp hef with ⟨hemem, hexp⟩
    have : e = (rid, e.2) := by
      cases e; simp at hekey; simp [hekey]
    rw [this] at hemem
    have := key_unique_of_nodup st.requestStatuses rid e.2 info hnodup hemem hmem
    rw [← this]
    exact hexp
  · intro hexp
    exact List.mem_map.mpr ⟨(rid, info), List.mem_filter.mpr ⟨hmem, hexp⟩, rfl⟩

/-- **C9.** A single sweep of the cleanup sweeper evicts exactly those
registry entries that are terminal (status not `in_progress`) and whose
`lastUpdated` age exceeds the retention window; an `in_progress` entry is
never evicted regardless of its age; and whether a `runtime.remove` call on
an evicted entry's log file succeeds has no effect on the registry outcome
(the entry is removed either way). -/
theorem cleanup_evicts_exactly_expired_terminal
    (now : Int) (st : ServerState) (removeOk : String → Bool)
    (rid : String) (info : StreamingFileInfo)
    (hnodup : (st.requestStatuses.map Prod.fst).Nodup)
    (hmem : (rid, info) ∈ st.requestStatuses) :
    (mapGet (cleanupExpiredFiles now st removeOk).requestStatuses rid =
      if isExpired now info then none else some info)
    ∧ (info.status = RequestStatus.in_progress →
        mapGet (cleanupExpiredFiles now st removeOk).requestStatuses rid = some info)
    ∧ (∀ g : String → Bool,
        (cleanupExpiredFiles now st removeOk).requestStatuses =
          (cleanupExpiredFiles now st g).requestStatuses) := by
  have hchar : ∀ f : String → Bool,
      (cleanupExpiredFiles now st f).requestStatuses =
        st.requestStatuses.filter
          (fun e => !(((st.requestStatuses.filter
            (fun e => isExpired now e.2)).map Prod.fst).contains e.1)) := by
    intro f
    unfold cleanupExpiredFiles
    exact foldl_sweepOne_requestStatuses f _ st
  have hmain :
      mapGet (cleanupExpiredFiles now st removeOk).requestStatuses rid =
        if isExpired now info then none else some info := by
    by_cases hexp : isExpired now info
    · have hin : rid ∈ ((st.requestStatuses.filter
          (fun e => isExpired now e.2)).map Prod.fst) :=
        (mem_expired_ids_iff now st rid info hnodup hmem).mpr hexp
      rw [if_pos hexp, hchar removeOk,
        mapGet_filter_key st.requestStatuses
          (fun x => !(((st.requestStatuses.filter
            (fun e => isExpired now e.2)).map Prod.fst).contains x)) rid,
        if_neg (by simpa using hin)]
    · have hnotin : rid ∉ ((st.requestStatuses.filter
          (fun e => isExpired now e.2)).map Prod.fst) := fun hin =>
        hexp ((mem_expired_ids_iff now st rid info hnodup hmem).mp hin)
      rw [if_neg hexp, hchar removeOk,
        mapGet_filter_key st.requestStatuses
          (fun x => !(((st.requestStatuses.filter
            (fun e => isExpired now e.2)).map Prod.fst).contains x)) rid,
        if_pos (by simpa using hnotin)]
      exact mapGet_eq_some_of_nodup st.requestStatuses rid info hnodup hmem
  refine ⟨hmain, ?_, ?_⟩
  · intro hip
    have : isExpired now info = false := by simp [isExpired, hip]
    rw [hmain, this]
    simp
  · intro g
    rw [hchar removeOk, hchar g]

/-- A terminal entry the sweeper must evict: completed, `lastUpdated = 0`. -/
def infoOldDone : StreamingFileInfo :=
  { requestId := "old_done"
    filePath := "/home/user/.claude/projects/proj/streaming/old_done.jsonl"
    status := .completed, totalMessages := 2, lastUpdated := 0 }

/-- An `in_progress` entry of the same age, which the sweeper must keep. -/
def infoOldLive : StreamingFileInfo :=
  { requestId := "old_live"
    filePath := "/home/user/.claude/projects/proj/streaming/old_live.jsonl"
    status := .in_progress, totalMessages := 1, lastUpdated := 0 }

/-- A server state with one expired terminal entry and one equally old
`in_progress` entry. -/
def stSweep : ServerState :=
  { requestStatuses := [("old_done", infoOldDone), ("old_live", infoOldLive)]
    files := [(infoOldDone.filePath, [some .done]), (infoOldLive.filePath, [])] }

theorem cleanup_evicts_exactly_expired_terminal_witness :
    mapGet (cleanupExpiredFiles 600000 stSweep (fun _ => false)).requestStatuses
      "old_done" = none
    ∧ mapGet (cleanupExpiredFiles 600000 stSweep (fun _ => false)).requestStatuses
      "old_live" = some infoOldLive := by
  have h1 := cleanup_evicts_exactly_expired_terminal 600000 stSweep
    (fun _ => false) "old_done" infoOldDone (by decide) (by decide)
  have h2 := cleanup_evicts_exactly_expired_terminal 600000 stSweep
    (fun _ => false) "old_live" infoOldLive (by decide) (by decide)
  refine ⟨?_, h2.2.1 rfl⟩
  have hexp : isExpired 600000 infoOldDone = true := by decide
  rw [h1.1, if_pos hexp]

/-- **C4 counterexample.** After the retention window has elapsed past the
terminal request `r1`'s `lastUpdated` and the sweeper has evicted its entry,
`resume` on `r1` answers with the 404 error response `Request not found` — an
error response, not a success with an empty message sequence, refuting the
claim. -/
theorem resume_after_eviction_counterexample :
    handleResumeRequest (cleanupExpiredFiles 400000 stC5 (fun _ => true))
      (some "/home/user") "r1" (some "0") =
      .jsonError "Request not found" 404 := by
  decide

/-- **C4 amended.** After the retention window has elapsed past a terminal
request's `lastUpdated` and a sweep has run, calling `resume` on that
`requestId` returns the 404 `Request not found` error response (the handler
rejects any request id absent from the registry before reading the log); it
does not throw, but it is an error response rather than an empty result. -/
theorem resume_after_eviction_is_not_found_error
    (now : Int) (st : ServerState) (removeOk : String → Bool)
    (rid : String) (info : StreamingFileInfo)
    (home : Option String) (q : Option String)
    (hrid : rid ≠ "")
    (hmem : (rid, info) ∈ st.requestStatuses)
    (hterm : info.status ≠ RequestStatus.in_progress)
    (hage : now - info.lastUpdated > CLEANUP_INTERVAL_MS) :
    handleResumeRequest (cleanupExpiredFiles now st removeOk) home rid q =
      .jsonError "Request not found" 404 := by
  have hexp : isExpired now info = true := by simp [isExpired, hage, hterm]
  have hin : rid ∈ ((st.requestStatuses.filter
      (fun e => isExpired now e.2)).map Prod.fst) :=
    List.mem_map.mpr ⟨(rid, info), List.mem_filter.mpr ⟨hmem, hexp⟩, rfl⟩
  have hnone : getRequestStatus (cleanupExpiredFiles now st removeOk) rid = none := by
    show mapGet (cleanupExpiredFiles now st removeOk).requestStatuses rid = none
    unfold cleanupExpiredFiles
    rw [foldl_sweepOne_requestStatuses removeOk _ st,
      mapGet_filter_key st.requestStatuses
        (fun x => !(((st.requestStatuses.filter
          (fun e => isExpired now e.2)).map Prod.fst).contains x)) rid,
      if_neg (by simpa using hin)]
  unfold handleResumeRequest
  rw [if_neg hrid]
  simp only [hnone]

theorem resume_after_eviction_is_not_found_error_witness :
    handleResumeRequest (cleanupExpiredFiles 600000 stSweep (fun _ => true))
      (some "/home/user") "old_done" (some "0") =
      .jsonError "Request not found" 404 :=
  resume_after_eviction_is_not_found_error 600000 stSweep (fun _ => true)
    "old_done" infoOldDone (some "/home/user") (some "0")
    (by decide) (by decide) (by decide) (by decide)

theorem readStreamingFile_nan (st : ServerState) (h p rid : String) :
    readStreamingFile st (some h) p rid .nan = .ok [] := by
  unfold readStreamingFile getStreamingFilePath getStreamingDir
  simp only [Except.map]
  cases mapGet st.files
      ((h ++ "/.claude/projects/" ++ p ++ "/streaming") ++ "/" ++ rid ++ ".jsonl") <;>
    simp [readLoop]

/-- **C10.** For every request with an existing registry entry and a
non-numeric `fromIndex` query value — one that survives the `|| "0"` default
and whose `parseInt` is `NaN` — the resume handler does not throw and
responds successfully with an empty messages list: the read loop's
`i < lines.length` bound check is false for `NaN`, so no log line is ever
indexed, whether or not the log file exists. -/
theorem resume_nan_from_index_yields_empty
    (st : ServerState) (h rid p : String) (info : StreamingFileInfo)
    (q : Option String)
    (hrid : rid ≠ "")
    (hstat : getRequestStatus st rid = some info)
    (hproj : extractEncodedProjectName info.filePath = some p)
    (hq : parseIntDec (jsOr q "0") = .nan) :
    handleResumeRequest st (some h) rid q =
      .ok { messages := [], totalMessages := info.totalMessages
            isComplete := decide (info.status ≠ RequestStatus.in_progress) } := by
  unfold handleResumeRequest
  rw [if_neg hrid]
  simp only [hstat, hq, hproj, readStreamingFile_nan]

theorem resume_nan_from_index_yields_empty_witness :
    handleResumeRequest stW (some "/home/user") "r1" (some "abc") =
      .ok { messages := [], totalMessages := 3, isComplete := true } := by
  have h := resume_nan_from_index_yields_empty stW "/home/user" "r1" "proj"
    infoW (some "abc") (by decide) (by decide) (by decide) (by decide)
  simpa [infoW] using h

/-- How the engine's output sequence in `executeClaudeCommand` ends: the
`for await` loop finishes normally, throws an `AbortError`, or throws any
other exception. -/
inductive EngineResult where
  | completed
  | abortError
  | failed (reason : String)
deriving DecidableEq, Repr

/-- An observable step of `executeClaudeCommand` (chat.ts lines 144–221):
`persist m` is the `await appendMessage(...)` call — one stream-log append
plus the registry update it performs — and `deliver m` is the `yield` that
hands `m` to the live transport. -/
inductive ControllerEvent where
  | persist (m : StreamResponse)
  | deliver (m : StreamResponse)
deriving DecidableEq, Repr

/-- The `if (encodedProjectName) await appendMessage(...)` guard: the append
happens exactly when the request has a project (and hence a stream log). -/
def persistEvents (project : Option String) (m : StreamResponse) :
    List ControllerEvent :=
  match project with
  | some _ => [.persist m]
  | none => []

/-- The event trace of `executeClaudeCommand` (chat.ts lines 144–221): for
each engine message, append it to the log (when a project exists) and then
yield it; then, depending on how the engine's sequence ended, append and
yield `done`, `aborted`, or `error(reason)`.  `sdkMessages` are the messages
the engine produced before the sequence ended. -/
def executeClaudeCommand (project : Option String) (sdkMessages : List String)
    (result : EngineResult) : List ControllerEvent :=
  (sdkMessages.flatMap fun d =>
    persistEvents project (.claude_json d) ++ [.deliver (.claude_json d)])
  ++ match result with
     | .completed => persistEvents project .done ++ [.deliver .done]
     | .abortError => persistEvents project .aborted ++ [.deliver .aborted]
     | .failed e => persistEvents project (.error e) ++ [.deliver (.error e)]

/-- The messages a trace has persisted to the stream log, in order. -/
def persistedOf (t : List ControllerEvent) : List StreamResponse :=
  t.filterMap fun e =>
    match e with
    | .persist m => some m
    | .deliver _ => none

/-- The messages a trace has delivered on the live transport, in order. -/
def deliveredOf (t : List ControllerEvent) : List StreamResponse :=
  t.filterMap fun e =>
    match e with
    | .deliver m => some m
    | .persist _ => none

/-- The terminal log entry for each way the engine run can end. -/
def terminalEntry : EngineResult → StreamResponse
  | .completed => .done
  | .abortError => .aborted
  | .failed e => .error e

/-- The terminal registry status induced by each terminal entry. -/
def terminalStatus : EngineResult → RequestStatus
  | .completed => .completed
  | .abortError => .aborted
  | .failed _ => .failed

/-- The full message sequence a run writes and delivers: each engine message
wrapped as `claude_json`, then the terminal entry. -/
def wireMessages (sdkMessages : List String) (result : EngineResult) :
    List StreamResponse :=
  sdkMessages.map .claude_json ++ [terminalEntry result]

theorem executeClaudeCommand_eq_blocks (p : String) (sdkMessages : List String)
    (result : EngineResult) :
    executeClaudeCommand (some p) sdkMessages result =
      (wireMessages sdkMessages result).flatMap
        (fun m => [.persist m, .deliver m]) := by
  unfold executeClaudeCommand wireMessages
  cases result <;>
    simp [persistEvents, terminalEntry, List.flatMap_append, List.flatMap_map]

theorem deliveredOf_take_blocks (L : List StreamResponse) :
    ∀ k, deliveredOf ((L.flatMap fun m => [.persist m, .deliver m]).take k) <+:
      persistedOf ((L.flatMap fun m => [.persist m, .deliver m]).take k) := by
  induction L with
  | nil =>
    intro k
    simp [deliveredOf, persistedOf]
  | cons m rest ih =>
    intro k
    match k with
    | 0 => simp [deliveredOf, persistedOf]
    | 1 => simp [deliveredOf, persistedOf, List.flatMap_cons]
    | Nat.succ (Nat.succ k) =>
      have htake : ((m :: rest).flatMap fun m => [.persist m, .deliver m]).take (k + 2) =
          ControllerEvent.persist m :: ControllerEvent.deliver m ::
            ((rest.flatMap fun m => [.persist m, .deliver m]).take k) := by
        simp [List.flatMap_cons]
      rw [htake]
      simp only [deliveredOf, persistedOf, List.filterMap_cons]
      exact List.cons_prefix_cons.mpr ⟨rfl, ih k⟩

/-- **C2.** For every message the engine produces during a running request
(one that has a stream log, i.e. a project), `executeClaudeCommand` first
appends the message to the stream log and updates the registry
(`appendMessage`), and only then yields it to the live transport: after any
prefix of the run's event trace, the delivered messages are a prefix of the
persisted messages, so a state in which a message has been delivered but not
persisted is never reached.  Delivery consumption by a connected client is
not required for the trace to advance. -/
theorem controller_persists_before_delivering
    (p : String) (sdkMessages : List String) (result : EngineResult) (k : Nat) :
    deliveredOf ((executeClaudeCommand (some p) sdkMessages result).take k) <+:
      persistedOf ((executeClaudeCommand (some p) sdkMessages result).take k) := by
  rw [executeClaudeCommand_eq_blocks]
  exact deliveredOf_take_blocks (wireMessages sdkMessages result) k

theorem persistedOf_blocks (L : List StreamResponse) :
    persistedOf (L.flatMap fun m => [.persist m, .deliver m]) = L := by
  induction L with
  | nil => simp [persistedOf]
  | cons m rest ih =>
    simp only [List.flatMap_cons, persistedOf, List.filterMap_cons] at ih ⊢
    simp [ih]

theorem foldl_status_claude_json (ds : List String) :
    ∀ s : RequestStatus,
      (ds.map StreamResponse.claude_json).foldl statusAfterMessage s = s := by
  induction ds with
  | nil => intro s; rfl
  | cons d t ih => intro s; simpa [statusAfterMessage] using ih s

/-- **C3.** Every run of the drive loop appends exactly one terminal entry to
the request's log — `done` when the engine's sequence ends normally,
`aborted` when an `AbortError` signalled that cancellation was honored,
`error(reason)` on any other engine exception.  The sequence of appends is
the engine messages followed by that single terminal entry: the terminal
entry is the final append, exactly one terminal entry is appended, and
folding the registry's status update over the appended log takes the status
from `in_progress` to the matching terminal value (`done → completed`,
`error → failed`, `aborted → aborted`).  The drive loop is the only writer
of a request's log, so these are the log's contents. -/
theorem controller_appends_single_terminal_entry
    (p : String) (sdkMessages : List String) (result : EngineResult) :
    persistedOf (executeClaudeCommand (some p) sdkMessages result) =
      sdkMessages.map .claude_json ++ [terminalEntry result]
    ∧ (persistedOf (executeClaudeCommand (some p) sdkMessages result)).countP
        (fun m => m.isTerminal) = 1
    ∧ (persistedOf (executeClaudeCommand (some p) sdkMessages result)).getLast? =
        some (terminalEntry result)
    ∧ (persistedOf (executeClaudeCommand (some p) sdkMessages result)).foldl
        statusAfterMessage RequestStatus.in_progress = terminalStatus result := by
  have hpers : persistedOf (executeClaudeCommand (some p) sdkMessages result) =
      sdkMessages.map .claude_json ++ [terminalEntry result] := by
    rw [executeClaudeCommand_eq_blocks, persistedOf_blocks, wireMessages]
  refine ⟨hpers, ?_, ?_, ?_⟩
  · rw [hpers, List.countP_append]
    have h1 : (sdkMessages.map StreamResponse.claude_json).countP
        (fun m => m.isTerminal) = 0 := by
      simp [List.countP_map, Function.comp, StreamResponse.isTerminal]
    have h2 : ([terminalEntry result].countP (fun m => m.isTerminal)) = 1 := by
      cases result <;> simp [terminalEntry, StreamResponse.isTerminal, List.countP_cons]
    rw [h1, h2]
  · rw [hpers]
    exact List.getLast?_concat _
  · rw [hpers, List.foldl_append, foldl_status_claude_json]
    cases result <;> rfl

/-- `calculateRetryDelay` from `useNetworkRecovery.ts` lines 156–166, with the
`Math.random()` sample passed in as `random`:
`min(initialRetryDelay * 2^retryCount, maxRetryDelay) + random * 1000`. -/
def calculateRetryDelay (initialRetryDelay maxRetryDelay : Rat)
    (retryCount : Nat) (random : Rat) : Rat :=
  min (initialRetryDelay * 2 ^ retryCount) maxRetryDelay + random * 1000

/-- **C8.** For every retry count `r`, the computed delay equals
`min(initialDelay * 2^r, maxDelay)` plus a jitter term `random * 1000` with
`random ∈ [0, 1)`, so the delay always lies in the half-open interval
`[min(initialDelay * 2^r, maxDelay), min(initialDelay * 2^r, maxDelay) + 1000)`. -/
theorem retry_delay_in_jitter_interval
    (initialRetryDelay maxRetryDelay random : Rat) (retryCount : Nat)
    (h0 : 0 ≤ random) (h1 : random < 1) :
    min (initialRetryDelay * 2 ^ retryCount) maxRetryDelay ≤
      calculateRetryDelay initialRetryDelay maxRetryDelay retryCount random
    ∧ calculateRetryDelay initialRetryDelay maxRetryDelay retryCount random <
      min (initialRetryDelay * 2 ^ retryCount) maxRetryDelay + 1000 := by
  unfold calculateRetryDelay
  have hj0 : (0 : Rat) ≤ random * 1000 := by nlinarith
  have hj1 : random * 1000 < 1000 := by nlinarith
  exact ⟨by linarith, by linarith⟩

theorem retry_delay_in_jitter_interval_witness :
    (4000 : Rat) ≤ calculateRetryDelay 1000 30000 2 (1 / 2)
    ∧ calculateRetryDelay 1000 30000 2 (1 / 2) < (5000 : Rat) := by
  have h := retry_delay_in_jitter_interval 1000 30000 (1 / 2) 2
    (by norm_num) (by norm_num)
  have hmin : min ((1000 : Rat) * 2 ^ 2) 30000 = 4000 := by norm_num
  rw [hmin] at h
  exact ⟨h.1, by linarith [h.2]⟩

/-- The outcome of one recovery attempt inside `handleNetworkError`
(`useNetworkRecovery.ts` lines 246–319), as seen by its `try`/`catch`: the
status poll threw a network-classified error; the status poll returned
`not_found` (the handler then throws a plain `Error`, which
`isNetworkError` rejects, stopping recovery); the resume fetch threw a
network-classified error; the resume call succeeded; or some other
non-network error was thrown. -/
inductive AttemptOutcome where
  | statusNetworkError
  | statusNotFound
  | resumeNetworkError
  | resumeOk
  | otherError
deriving DecidableEq, Repr

/-- The observable result of a recovery run: how many attempts executed, the
messages handed to the message processor, the final `messageIndexRef` cursor,
and the boolean `handleNetworkError` resolves to. -/
structure RecoveryRun where
  attempts : Nat
  processed : List StreamResponse
  cursorAfter : Nat
  recovered : Bool
deriving DecidableEq, Repr

/-- The recursive `attemptRecovery` of `handleNetworkError`
(`useNetworkRecovery.ts` lines 246–319) combined with the `onResumeMessages`
callback of `ChatPage.sendMessage` (ChatPage.tsx lines 242–252).
`out j` is the outcome of the attempt running at `retryCount = j`;
`resumeFn c` is the message list the server returns for `fromIndex = c`.
`fuel` is the number of attempts the guard still allows,
`maxRetries - retryCount`: it is zero exactly when `retryCount >= maxRetries`,
where the run stops with `onRecoveryFailed`.  On `resumeOk` the callback
feeds `resumeFn cursor` to `processStreamLine` without calling
`trackMessage`, so the cursor is unchanged.  On a network-classified error
the retry counter increases and the attempt repeats after a backoff delay;
`not_found` and other non-network errors stop the run. -/
def attemptRecoveryAux (out : Nat → AttemptOutcome)
    (resumeFn : Nat → List StreamResponse) (cursor : Nat) :
    Nat → Nat → RecoveryRun
  | 0, _ =>
    { attempts := 0, processed := [], cursorAfter := cursor, recovered := false }
  | fuel + 1, retryCount =>
    match out retryCount with
    | .resumeOk =>
      { attempts := 1, processed := resumeFn cursor
        cursorAfter := cursor, recovered := true }
    | .statusNotFound =>
      { attempts := 1, processed := [], cursorAfter := cursor, recovered := false }
    | .otherError =>
      { attempts := 1, processed := [], cursorAfter := cursor, recovered := false }
    | .statusNetworkError =>
      let r := attemptRecoveryAux out resumeFn cursor fuel (retryCount + 1)
      { r with attempts := r.attempts + 1 }
    | .resumeNetworkError =>
      let r := attemptRecoveryAux out resumeFn cursor fuel (retryCount + 1)
      { r with attempts := r.attempts + 1 }

/-- `attemptRecovery(retryCount)` of `handleNetworkError`; `handleNetworkError`
itself starts the run at `retryCount = 0`. -/
def attemptRecovery (out : Nat → AttemptOutcome)
    (resumeFn : Nat → List StreamResponse) (maxRetries cursor retryCount : Nat) :
    RecoveryRun :=
  attemptRecoveryAux out resumeFn cursor (maxRetries - retryCount) retryCount

theorem attemptRecoveryAux_net_failures_then_success
    (out : Nat → AttemptOutcome) (resumeFn : Nat → List StreamResponse)
    (cursor : Nat) :
    ∀ (attemptsLeft : Nat), ∀ (fuel rc : Nat), attemptsLeft < fuel →
      (∀ j, j < attemptsLeft → out (rc + j) = .statusNetworkError ∨
        out (rc + j) = .resumeNetworkError) →
      out (rc + attemptsLeft) = .resumeOk →
      attemptRecoveryAux out resumeFn cursor fuel rc =
        { attempts := attemptsLeft + 1, processed := resumeFn cursor
          cursorAfter := cursor, recovered := true } := by
  intro attemptsLeft
  induction attemptsLeft with
  | zero =>
    intro fuel rc hlt hfail hsucc
    match fuel, hlt with
    | f + 1, _ =>
      simp only [Nat.add_zero] at hsucc
      simp [attemptRecoveryAux, hsucc]
  | succ n ih =>
    intro fuel rc hlt hfail hsucc
    match fuel, hlt with
    | f + 1, hlt =>
      have hfirst := hfail 0 (Nat.succ_pos n)
      simp only [Nat.add_zero] at hfirst
      have hrec := ih f (rc + 1) (by omega)
        (fun j hj => by
          have := hfail (j + 1) (by omega)
          simpa [Nat.add_assoc, Nat.add_comm 1 j] using this)
        (by
          have : rc + 1 + n = rc + (n + 1) := by omega
          rw [this]
          exact hsucc)
      rcases hfirst with hout | hout <;>
        simp [attemptRecoveryAux, hout, hrec]

theorem attemptRecoveryAux_all_net_failures
    (out : Nat → AttemptOutcome) (resumeFn : Nat → List StreamResponse)
    (cursor : Nat)
    (hall : ∀ j, out j = .statusNetworkError ∨ out j = .resumeNetworkError) :
    ∀ (fuel rc : Nat),
      attemptRecoveryAux out resumeFn cursor fuel rc =
        { attempts := fuel, processed := [], cursorAfter := cursor
          recovered := false } := by
  intro fuel
  induction fuel with
  | zero => intro rc; rfl
  | succ f ih =>
    intro rc
    rcases hall rc with hout | hout <;>
      simp [attemptRecoveryAux, hout, ih (rc + 1)]

/-- **C7.** Starting from a transport failure, if the first `N` recovery
attempts fail with network-classified errors and attempt `N` succeeds, with
`N < maxRetries`, then the recovery run executes exactly `N + 1` attempts and
reports success; and under `maxRetries` consecutive network-classified
failures the run executes exactly `maxRetries` attempts, then stops with
failure (`onRecoveryFailed`) and performs no further attempt. -/
theorem recovery_retry_counts
    (resumeFn : Nat → List StreamResponse) (maxRetries cursor attemptsBeforeSuccess : Nat)
    (outA outB : Nat → AttemptOutcome)
    (hN : attemptsBeforeSuccess < maxRetries)
    (hA : ∀ j, j < attemptsBeforeSuccess →
      outA j = .statusNetworkError ∨ outA j = .resumeNetworkError)
    (hAsucc : outA attemptsBeforeSuccess = .resumeOk)
    (hB : ∀ j, outB j = .statusNetworkError ∨ outB j = .resumeNetworkError) :
    (attemptRecovery outA resumeFn maxRetries cursor 0).attempts =
      attemptsBeforeSuccess + 1
    ∧ (attemptRecovery outA resumeFn maxRetries cursor 0).recovered = true
    ∧ (attemptRecovery outB resumeFn maxRetries cursor 0).attempts = maxRetries
    ∧ (attemptRecovery outB resumeFn maxRetries cursor 0).recovered = false := by
  have hA' := attemptRecoveryAux_net_failures_then_success outA resumeFn cursor
    attemptsBeforeSuccess (maxRetries - 0) 0 (by omega)
    (fun j hj => by simpa using hA j hj) (by simpa using hAsucc)
  have hB' := attemptRecoveryAux_all_net_failures outB resumeFn cursor hB
    (maxRetries - 0) 0
  unfold attemptRecovery
  rw [hA', hB']
  simp

/-- The outcome schedule used to instantiate the retry-count theorem: two
network failures, then success. -/
def outAW : Nat → AttemptOutcome :=
  fun j => if j < 2 then .statusNetworkError else .resumeOk

/-- The outcome schedule with every attempt failing on the network. -/
def outBW : Nat → AttemptOutcome :=
  fun _ => .resumeNetworkError

theorem recovery_retry_counts_witness :
    (attemptRecovery outAW (fun _ => []) 4 0 0).attempts = 3
    ∧ (attemptRecovery outAW (fun _ => []) 4 0 0).recovered = true
    ∧ (attemptRecovery outBW (fun _ => []) 4 0 0).attempts = 4
    ∧ (attemptRecovery outBW (fun _ => []) 4 0 0).recovered = false := by
  have h := recovery_retry_counts (fun _ => []) 4 0 2 outAW outBW
    (by norm_num)
    (fun j hj => Or.inl (by simp [outAW, hj]))
    (by simp [outAW])
    (fun j => Or.inr rfl)
  exact h

/-- The three-message server log backing the recovery scenarios. -/
def serverLogC6 : List StreamResponse :=
  [.claude_json "m0", .claude_json "m1", .claude_json "m2"]

/-- The resume service answer for the scenario: the log suffix from the
requested index. -/
def resumeFnC6 : Nat → List StreamResponse :=
  fun i => serverLogC6.drop i

/-- An outcome schedule whose first attempt succeeds. -/
def outC6 : Nat → AttemptOutcome :=
  fun _ => .resumeOk

/-- **C6 counterexample.** With the local cursor at 1 and the server holding
three messages, a successful recovery feeds the two returned messages to the
message processor but leaves the cursor at 1 — not at 1 + 2 as the claim
requires — so a subsequent resume call with the post-recovery cursor fetches
the same two messages again. -/
theorem recovery_cursor_not_advanced_counterexample :
    (attemptRecovery outC6 resumeFnC6 5 1 0).processed.length = 2
    ∧ (attemptRecovery outC6 resumeFnC6 5 1 0).cursorAfter = 1
    ∧ ¬((attemptRecovery outC6 resumeFnC6 5 1 0).cursorAfter =
        1 + (attemptRecovery outC6 resumeFnC6 5 1 0).processed.length)
    ∧ resumeFnC6 (attemptRecovery outC6 resumeFnC6 5 1 0).cursorAfter =
        (attemptRecovery outC6 resumeFnC6 5 1 0).processed := by
  decide

/-- **C6 amended.** When the resume call during recovery succeeds, the
messages returned for the current cursor (`resumeFn cursor`) are fed to the
message processor, but the local cursor is not advanced: the
`onResumeMessages` callback in `ChatPage.sendMessage` calls
`processStreamLine` without `trackMessage`, so `messageIndexRef` keeps its
pre-recovery value and a subsequent resume call would use the same cursor
(at-least-once delivery; duplicates are possible). -/
theorem recovery_feeds_messages_cursor_unchanged
    (out : Nat → AttemptOutcome) (resumeFn : Nat → List StreamResponse)
    (maxRetries cursor : Nat)
    (hsucc : out 0 = .resumeOk) (hpos : 0 < maxRetries) :
    attemptRecovery out resumeFn maxRetries cursor 0 =
      { attempts := 1, processed := resumeFn cursor
        cursorAfter := cursor, recovered := true } := by
  obtain ⟨m, rfl⟩ : ∃ m, maxRetries = m + 1 := ⟨maxRetries - 1, by omega⟩
  unfold attemptRecovery
  simp [attemptRecoveryAux, hsucc]

theorem recovery_feeds_messages_cursor_unchanged_witness :
    attemptRecovery outC6 resumeFnC6 5 1 0 =
      { attempts := 1, processed := [.claude_json "m1", .claude_json "m2"]
        cursorAfter := 1, recovered := true } := by
  have h := recovery_feeds_messages_cursor_unchanged outC6 resumeFnC6 5 1
    rfl (by norm_num)
  simpa [resumeFnC6, serverLogC6] using h
